import Mathlib

/-!
Shallow embedding of the WLED effect engine (hacs-wledeffectscripts):
the effect lifecycle state, command-tracking wrapper, blackout routine,
connection test, stop/start transitions, HTTP retry loop, interruptible
sleep, segment placement, and the state-sync smooth transition.
Each definition is translated from the repository sources; oracles stand
for the external world (HTTP responses, randomness, the scheduler clock).
-/

namespace WledSpec

/-! ## Configuration constants (wled_effect_base.py, segment_fade.py, state_sync.py) -/

def START_LED : ℕ := 1
def STOP_LED : ℕ := 40
def SEGMENT_ID : ℕ := 1
def LED_BRIGHTNESS : ℕ := 255
def MIN_SPACING : ℕ := 1
def SYNC_TRANSITION_STEPS : ℕ := 10

/-! ## Wire-level payloads and observable events -/

/-- An RGB triple; the source serializes it as a six-hex-digit string. -/
abbrev Color := ℕ × ℕ × ℕ

/-- The JSON command payloads the engine sends, structurally.
`frame` is `{"seg": {"id": _, "i": [...], ("bri": _)?}}`;
`reset` is the blackout reset `{"seg": {"id": _, "i": [], "col": [[0,0,0]], "bri": 1, "on": true}}`;
`control` is `{"on": true, "live": false, "lor": 1, "bri": 255}`;
`setup` is the segment configuration payload of `test_connection`. -/
inductive Payload where
  | frame (segId : ℕ) (leds : List (ℕ × Color)) (bri : Option ℕ)
  | reset (segId : ℕ)
  | control
  | setup (segId startL stopL : ℕ)
deriving DecidableEq

/-- Observable actions of the engine: a sent command, a plain sleep,
a task spawned via `create_task`, and the HTTP-session `cleanup`. -/
inductive Event where
  | cmd (p : Payload)
  | slept (d : ℚ)
  | spawnTask (n : String)
  | cleanup
deriving DecidableEq

/-! ## Effect instance state (`WLEDEffectBase.__init__` plus subclass fields) -/

/-- The mutable per-effect-instance state: the `running` flag, the
`run_once_mode` flag, the tracked task names, the command counters, and
(for the segment-fade effect) the active segments `{id: (start, end)}`
— modelled as an id-keyed association list — and the segment counter. -/
structure EffState where
  running : Bool
  runOnceMode : Bool
  activeTasks : List String
  commandCount : ℕ
  successCount : ℕ
  failCount : ℕ
  activeSegments : List (ℕ × ℕ × ℕ)
  segmentCounter : ℕ
deriving DecidableEq

/-! ## Command-tracking wrapper (`WLEDEffectBase.send_wled_command`) -/

/-- `send_wled_command`: increments `command_count`, forwards the payload to
the HTTP client (whose boolean result is the parameter `ok`), and increments
exactly one of `success_count` / `fail_count`; returns the client's result. -/
def sendWled (ok : Bool) (s : EffState) : Bool × EffState :=
  let s1 := { s with commandCount := s.commandCount + 1 }
  if ok then
    (true, { s1 with successCount := s1.successCount + 1 })
  else
    (false, { s1 with failCount := s1.failCount + 1 })

/-! ## Segment allocator (`SegmentFadeEffect.check_overlap` and the
placement loop of `fade_segment_lifecycle`) -/

/-- `check_overlap`: true iff the candidate range `[startPos, endPos]`
fails the spacing test against some active segment `(id, start, end)`. -/
def checkOverlap (segs : List (ℕ × ℕ × ℕ)) (startPos endPos : ℕ) : Bool :=
  segs.any fun seg =>
    !(decide (endPos + MIN_SPACING < seg.2.1) || decide (startPos > seg.2.2 + MIN_SPACING))

/-- The placement loop: 20 random candidates (`draw 0`, …, `draw 19` from
`random.randint(START_LED, max_start_pos)`), the first one that passes
`check_overlap` wins; `none` when all 20 collide. -/
def tryPlace (segs : List (ℕ × ℕ × ℕ)) (draw : ℕ → ℕ) (len : ℕ) : Option ℕ :=
  ((List.range 20).map draw).find? fun c => !(checkOverlap segs c (c + len - 1))

/-- The spacing relation the specification states for a pair of active
segments: `A.end + s < B.start ∨ A.start > B.end + s`. -/
def SpacedPair (a b : ℕ × ℕ × ℕ) : Prop :=
  a.2.2 + MIN_SPACING < b.2.1 ∨ a.2.1 > b.2.2 + MIN_SPACING

/-- The two mutations of `active_segments` in the source: registration
(line 103, guarded by a successful placement in the same await-free
region) and removal (`pop`, line 204). -/
inductive SegStep : List (ℕ × ℕ × ℕ) → List (ℕ × ℕ × ℕ) → Prop where
  | place (segs : List (ℕ × ℕ × ℕ)) (draw : ℕ → ℕ) (len segId startPos : ℕ)
      (h : tryPlace segs draw len = some startPos) :
      SegStep segs ((segId, startPos, startPos + len - 1) :: segs)
  | remove (segs : List (ℕ × ℕ × ℕ)) (segId : ℕ) :
      SegStep segs (segs.filter fun t => t.1 != segId)

/-- The allocator invariant: every ordered pair of entries is spaced,
in both directions. -/
def WellSpaced (segs : List (ℕ × ℕ × ℕ)) : Prop :=
  segs.Pairwise fun a b => SpacedPair a b ∧ SpacedPair b a

theorem spacedPair_symm {a b : ℕ × ℕ × ℕ} (h : SpacedPair a b) : SpacedPair b a := by
  rcases h with h | h
  · exact Or.inr h
  · exact Or.inl h

theorem tryPlace_no_overlap {segs : List (ℕ × ℕ × ℕ)} {draw : ℕ → ℕ} {len c : ℕ}
    (h : tryPlace segs draw len = some c) :
    checkOverlap segs c (c + len - 1) = false := by
  have := List.find?_some h
  simpa using this

theorem tryPlace_mem {segs : List (ℕ × ℕ × ℕ)} {draw : ℕ → ℕ} {len c : ℕ}
    (h : tryPlace segs draw len = some c) :
    c ∈ (List.range 20).map draw :=
  List.mem_of_find?_eq_some h

theorem checkOverlap_false_spaced {segs : List (ℕ × ℕ × ℕ)} {c e : ℕ}
    (h : checkOverlap segs c e = false) :
    ∀ seg ∈ segs, SpacedPair (0, c, e) seg ∧ SpacedPair seg (0, c, e) := by
  intro seg hseg
  have hall := List.any_eq_false.mp h seg hseg
  simp only [Bool.not_eq_true', Bool.not_eq_false, Bool.or_eq_true, decide_eq_true_eq] at hall
  have hsp : SpacedPair (0, c, e) seg := hall
  exact ⟨hsp, spacedPair_symm hsp⟩

theorem segStep_preserves {s t : List (ℕ × ℕ × ℕ)}
    (hstep : SegStep s t) (hinv : WellSpaced s) : WellSpaced t := by
  cases hstep with
  | place draw len segId startPos h =>
      refine List.Pairwise.cons ?_ hinv
      intro seg hseg
      have := checkOverlap_false_spaced (tryPlace_no_overlap h) seg hseg
      exact ⟨this.1, this.2⟩
  | remove segId =>
      exact List.Pairwise.sublist (List.filter_sublist _) hinv

theorem reachable_wellSpaced {segs : List (ℕ × ℕ × ℕ)}
    (h : Relation.ReflTransGen SegStep [] segs) : WellSpaced segs := by
  induction h with
  | refl => exact List.Pairwise.nil
  | tail _ hstep ih => exact segStep_preserves hstep ih

theorem wellSpaced_pairs {segs : List (ℕ × ℕ × ℕ)} (h : WellSpaced segs) :
    ∀ a ∈ segs, ∀ b ∈ segs, a ≠ b → SpacedPair a b := by
  induction segs with
  | nil => intro a ha; cases ha
  | cons x xs ih =>
      intro a ha b hb hab
      rw [WellSpaced, List.pairwise_cons] at h
      rcases List.mem_cons.mp ha with rfl | ha1
      · rcases List.mem_cons.mp hb with rfl | hb1
        · exact absurd rfl hab
        · exact (h.1 b hb1).1
      · rcases List.mem_cons.mp hb with rfl | hb1
        · exact (h.1 a ha1).2
        · exact ih h.2 a ha1 b hb1 hab

/-- C1: every reachable active-segment set is pairwise spaced, and a
placement is only ever accepted when its spacing-expanded range avoids
every registered segment. -/
theorem segment_allocator_never_overlaps :
    (∀ segs, Relation.ReflTransGen SegStep [] segs →
      ∀ a ∈ segs, ∀ b ∈ segs, a ≠ b → SpacedPair a b)
    ∧ (∀ segs draw len c, tryPlace segs draw len = some c →
        checkOverlap segs c (c + len - 1) = false) := by
  constructor
  · intro segs h
    exact wellSpaced_pairs (reachable_wellSpaced h)
  · intro segs draw len c h
    exact tryPlace_no_overlap h

/-- Witness for C1 on a concrete two-step execution: place a segment at
start 5 (length 3), then one at start 20. -/
theorem segment_allocator_never_overlaps_witness :
    (∀ a ∈ [(2, 20, 22), (1, 5, 7)], ∀ b ∈ [(2, 20, 22), (1, 5, 7)],
      a ≠ b → SpacedPair a b)
    ∧ checkOverlap [(1, 5, 7)] 20 (20 + 3 - 1) = false := by
  have h1 : SegStep [] [(1, 5, 7)] :=
    SegStep.place [] (fun _ => 5) 3 1 5 (by decide)
  have h2 : SegStep [(1, 5, 7)] [(2, 20, 22), (1, 5, 7)] :=
    SegStep.place [(1, 5, 7)] (fun _ => 20) 3 2 20 (by decide)
  have hreach : Relation.ReflTransGen SegStep [] [(2, 20, 22), (1, 5, 7)] :=
    (Relation.ReflTransGen.single h1).tail h2
  exact ⟨segment_allocator_never_overlaps.1 _ hreach,
    segment_allocator_never_overlaps.2 [(1, 5, 7)] (fun _ => 20) 3 20 (by decide)⟩

/-! ## C10: the command-tracking wrapper's counter invariant -/

/-- C10: each `send_wled_command` call increments `command_count` by one and
exactly one of `success_count`/`fail_count` by one, returns the underlying
result, and preserves `command_count = success_count + fail_count`. -/
theorem send_wled_command_counters (s : EffState) (ok : Bool)
    (h : s.commandCount = s.successCount + s.failCount) :
    (sendWled ok s).1 = ok
    ∧ (sendWled ok s).2.commandCount = s.commandCount + 1
    ∧ (ok = true → (sendWled ok s).2.successCount = s.successCount + 1
        ∧ (sendWled ok s).2.failCount = s.failCount)
    ∧ (ok = false → (sendWled ok s).2.failCount = s.failCount + 1
        ∧ (sendWled ok s).2.successCount = s.successCount)
    ∧ (sendWled ok s).2.commandCount
        = (sendWled ok s).2.successCount + (sendWled ok s).2.failCount := by
  cases ok <;> simp [sendWled] <;> omega

/-- Witness for C10 at a concrete state with counters 3 = 2 + 1. -/
theorem send_wled_command_counters_witness :
    (sendWled true ⟨true, false, [], 3, 2, 1, [], 0⟩).1 = true
    ∧ (sendWled true ⟨true, false, [], 3, 2, 1, [], 0⟩).2.commandCount
        = (sendWled true ⟨true, false, [], 3, 2, 1, [], 0⟩).2.successCount
          + (sendWled true ⟨true, false, [], 3, 2, 1, [], 0⟩).2.failCount := by
  have h := send_wled_command_counters ⟨true, false, [], 3, 2, 1, [], 0⟩ true (by decide)
  exact ⟨h.1, h.2.2.2.2⟩

/-! ## Command channel retry loop (`PyscriptHTTPClient.send_command`) -/

/-- Outcome of one delivery attempt: HTTP 200, a non-success status, an
`asyncio.TimeoutError`, or any other exception. -/
inductive AttemptResult where
  | ok
  | badStatus
  | timeout
  | connErr
deriving DecidableEq

/-- An attempt outcome the loop retries on (the two `except` arms). -/
def isRetryable : AttemptResult → Bool
  | AttemptResult.timeout => true
  | AttemptResult.connErr => true
  | _ => false

/-- The body of `send_command`'s `for attempt in range(retry_count + 1)`
loop over the pending attempt outcomes. Result: (returned boolean, number
of attempts performed, number of 0.1s backoffs taken). A 200 response
returns true; a non-success status returns false at once; a timeout or
other exception backs off and retries unless this was the final attempt. -/
def sendLoop : List AttemptResult → Bool × ℕ × ℕ
  | [] => (false, 0, 0)
  | r :: rest =>
    match r with
    | AttemptResult.ok => (true, 1, 0)
    | AttemptResult.badStatus => (false, 1, 0)
    | AttemptResult.timeout =>
      match rest with
      | [] => (false, 1, 0)
      | _ :: _ =>
        let out := sendLoop rest
        (out.1, out.2.1 + 1, out.2.2 + 1)
    | AttemptResult.connErr =>
      match rest with
      | [] => (false, 1, 0)
      | _ :: _ =>
        let out := sendLoop rest
        (out.1, out.2.1 + 1, out.2.2 + 1)

/-- `send_command(payload, retry_count)` against a transport whose n-th
attempt yields `t n`. -/
def sendCommand (t : ℕ → AttemptResult) (retryCount : ℕ) : Bool × ℕ × ℕ :=
  sendLoop ((List.range (retryCount + 1)).map t)

/-- A transport whose first attempt yields a non-success device status and
whose second attempt would succeed. -/
def c2Transport : ℕ → AttemptResult :=
  fun n => if n = 0 then AttemptResult.badStatus else AttemptResult.ok

/-- Claim C2 as stated is false: with the default two retries and a
transport whose first attempt returns a non-success status while the
second attempt would succeed, `send_command` returns false after a single
attempt with no backoff — a non-success status is not retried. -/
theorem send_command_status_not_retried_cex :
    sendCommand c2Transport 2 = (false, 1, 0)
    ∧ c2Transport 1 = AttemptResult.ok := by
  constructor
  · rfl
  · rfl

theorem sendLoop_spec : ∀ l : List AttemptResult, l ≠ [] →
    ((sendLoop l).1 = true ↔
      l.find? (fun a => !(isRetryable a)) = some AttemptResult.ok)
    ∧ (sendLoop l).2.1 ≤ l.length
    ∧ (sendLoop l).2.2 + 1 = (sendLoop l).2.1 := by
  intro l
  induction l with
  | nil => intro h; exact absurd rfl h
  | cons r rest ih =>
    intro _
    cases r with
    | ok => simp [sendLoop, List.find?, isRetryable]
    | badStatus => simp [sendLoop, List.find?, isRetryable]
    | timeout =>
      cases rest with
      | nil => simp [sendLoop, List.find?, isRetryable]
      | cons r2 rest2 =>
        have h2 := ih (by simp)
        simp only [sendLoop, List.find?, isRetryable, List.length_cons] at h2 ⊢
        exact ⟨h2.1, by omega, by omega⟩
    | connErr =>
      cases rest with
      | nil => simp [sendLoop, List.find?, isRetryable]
      | cons r2 rest2 =>
        have h2 := ih (by simp)
        simp only [sendLoop, List.find?, isRetryable, List.length_cons] at h2 ⊢
        exact ⟨h2.1, by omega, by omega⟩

/-- Claim C2 amended: `send_command` makes at most `retry_count + 1`
attempts, backs off 0.1s exactly once per non-final retried attempt, and
returns true exactly when the first non-retried outcome (a success status
or a non-success status, whichever comes first within the attempt budget)
is a success status; a non-success status aborts immediately without a
retry, and with every attempt timing out the default configuration makes
3 attempts with 2 backoffs and returns false. -/
theorem send_command_retry_behavior :
    (∀ t retryCount,
      (sendCommand t retryCount).2.1 ≤ retryCount + 1
      ∧ (sendCommand t retryCount).2.2 + 1 = (sendCommand t retryCount).2.1
      ∧ ((sendCommand t retryCount).1 = true ↔
          ((List.range (retryCount + 1)).map t).find? (fun a => !(isRetryable a))
            = some AttemptResult.ok))
    ∧ sendCommand (fun _ => AttemptResult.timeout) 2 = (false, 3, 2) := by
  constructor
  · intro t retryCount
    have hne : ((List.range (retryCount + 1)).map t) ≠ [] := by
      simp [List.range_succ]
    have h := sendLoop_spec _ hne
    have hlen : ((List.range (retryCount + 1)).map t).length = retryCount + 1 := by simp
    exact ⟨by rw [sendCommand]; omega, by rw [sendCommand]; omega, by rw [sendCommand]; exact h.1⟩
  · rfl

/-! ## Blackout routine (`WLEDEffectBase.blackout_segment`) -/

/-- The blackout frame's LED array: the source iterates the absolute LED
positions `range(START_LED, STOP_LED + 1)` and pairs each with off. -/
def blackoutLedArray : List (ℕ × Color) :=
  (List.range' START_LED (STOP_LED - START_LED + 1)).map fun i => (i, ((0, 0, 0) : Color))

/-- The first blackout command `{"seg": {"id": _, "i": led_array}}`. -/
def blackoutPayload : Payload := Payload.frame SEGMENT_ID blackoutLedArray none

/-- The minimal reset command sent after the blackout frame. -/
def resetPayload : Payload := Payload.reset SEGMENT_ID

/-- `blackout_segment`: sends the blackout frame via `send_wled_command`,
sleeps 0.2s, sends the reset command, sleeps 0.5s. `send n` is the HTTP
result of the command sent when `command_count = n`. -/
def blackoutSegment (send : ℕ → Bool) (s : EffState) : EffState × List Event :=
  let r1 := sendWled (send s.commandCount) s
  let r2 := sendWled (send r1.2.commandCount) r1.2
  (r2.2, [Event.cmd blackoutPayload, Event.slept (1/5),
          Event.cmd resetPayload, Event.slept (1/2)])

/-- Claim C4 fails on the code: the blackout frame's indices are the
absolute positions 1..40 rather than the relative indices 0..39 used by
every other frame emitter; relative index 0 is never cleared, and index
40 exceeds `last_index - first_index = 39`. -/
theorem blackout_frame_uses_absolute_indices :
    blackoutLedArray.map Prod.fst = List.range' 1 40
    ∧ (0, ((0, 0, 0) : Color)) ∉ blackoutLedArray
    ∧ (40, ((0, 0, 0) : Color)) ∈ blackoutLedArray
    ∧ STOP_LED - START_LED = 39 := by
  refine ⟨by decide, by decide, by decide, by decide⟩

/-! ## Stop transition (`WLEDEffectBase.stop` with
`PyscriptTaskManager.kill_task`, which performs the raw `task.unique`
call with no exception handling) -/

/-- Kill the named tasks in order; the first raised exception propagates
(mirrors the `for task_name in list(self.active_tasks)` loop in `stop`,
where each `kill_task` call is unprotected). -/
def killAll (kill : String → Except String Unit) : List String → Except String Unit
  | [] => Except.ok ()
  | n :: rest =>
    match kill n with
    | Except.error e => Except.error e
    | Except.ok _ => killAll kill rest

/-- `stop()`: set `running := false`, kill the main task, kill every
tracked sub-task, clear the bookkeeping set, blackout, release the HTTP
session. Any exception from a kill propagates to the caller. -/
def stopEff (kill : String → Except String Unit) (send : ℕ → Bool) (s : EffState) :
    Except String (EffState × List Event) :=
  let s1 := { s with running := false }
  match kill "wled_effect_main" with
  | Except.error e => Except.error e
  | Except.ok _ =>
    match killAll kill s1.activeTasks with
    | Except.error e => Except.error e
    | Except.ok _ =>
      let s2 := { s1 with activeTasks := [] }
      let r := blackoutSegment send s2
      Except.ok (r.1, r.2 ++ [Event.cleanup])

/-- An environment in which cancelling the main effect task raises. -/
def c5Kill : String → Except String Unit :=
  fun n => if n = "wled_effect_main" then Except.error "cancel failed" else Except.ok ()

/-- A running effect instance with one tracked sub-task. -/
def c5State : EffState := ⟨true, false, ["segment_1"], 0, 0, 0, [], 1⟩

/-- Claim C5 as stated is false: when cancelling the main task raises, the
exception propagates out of `stop()` and the remaining steps (bookkeeping
clear, blackout, connection release) are never performed. -/
theorem stop_cancellation_failure_cex :
    stopEff c5Kill (fun _ => true) c5State = Except.error "cancel failed" := by
  rfl

theorem killAll_ok (kill : String → Except String Unit) :
    ∀ l : List String, (∀ n ∈ l, kill n = Except.ok ()) →
      killAll kill l = Except.ok () := by
  intro l
  induction l with
  | nil => intro _; rfl
  | cons n rest ih =>
    intro h
    have hn : kill n = Except.ok () := h n (by simp)
    simp only [killAll, hn]
    exact ih fun m hm => h m (by simp [hm])

theorem sendWled_preserves (ok : Bool) (s : EffState) :
    (sendWled ok s).2.running = s.running
    ∧ (sendWled ok s).2.activeTasks = s.activeTasks := by
  cases ok <;> simp [sendWled]

theorem blackoutSegment_shape (send : ℕ → Bool) (s : EffState) :
    (blackoutSegment send s).1.running = s.running
    ∧ (blackoutSegment send s).1.activeTasks = s.activeTasks
    ∧ (blackoutSegment send s).2
        = [Event.cmd blackoutPayload, Event.slept (1/5),
           Event.cmd resetPayload, Event.slept (1/2)] := by
  refine ⟨?_, ?_, rfl⟩
  · rw [blackoutSegment]
    rw [(sendWled_preserves _ _).1, (sendWled_preserves _ _).1]
  · rw [blackoutSegment]
    rw [(sendWled_preserves _ _).2, (sendWled_preserves _ _).2]

/-- Claim C5 amended: provided no individual task cancellation raises,
`stop()` completes every step — `running` is set to false, the task
bookkeeping is cleared, the blackout frame and reset command are sent,
and the connection is released; if a cancellation does raise, the
exception propagates out of `stop()` (to be caught and logged one level
up, in the manager's `stop_effect`) and the remaining steps are skipped. -/
theorem stop_completes_when_kills_succeed (kill : String → Except String Unit)
    (send : ℕ → Bool) (s : EffState)
    (hmain : kill "wled_effect_main" = Except.ok ())
    (hsub : ∀ n ∈ s.activeTasks, kill n = Except.ok ()) :
    ∃ sf evs, stopEff kill send s = Except.ok (sf, evs)
      ∧ sf.running = false
      ∧ sf.activeTasks = []
      ∧ Event.cmd blackoutPayload ∈ evs
      ∧ Event.cmd resetPayload ∈ evs
      ∧ Event.cleanup ∈ evs := by
  have hall : killAll kill s.activeTasks = Except.ok () := killAll_ok kill _ hsub
  rw [stopEff]
  simp only [hmain, hall]
  refine ⟨_, _, rfl, ?_, ?_, ?_, ?_, ?_⟩
  · exact (blackoutSegment_shape send _).1
  · exact (blackoutSegment_shape send _).2.1
  · rw [(blackoutSegment_shape send _).2.2]; simp
  · rw [(blackoutSegment_shape send _).2.2]; simp
  · rw [(blackoutSegment_shape send _).2.2]; simp

/-- Witness for the amended C5 on a concrete running state whose
cancellations all succeed. -/
theorem stop_completes_when_kills_succeed_witness :
    ∃ sf evs, stopEff (fun _ => Except.ok ()) (fun _ => true) c5State = Except.ok (sf, evs)
      ∧ sf.running = false
      ∧ sf.activeTasks = []
      ∧ Event.cmd blackoutPayload ∈ evs
      ∧ Event.cmd resetPayload ∈ evs
      ∧ Event.cleanup ∈ evs :=
  stop_completes_when_kills_succeed (fun _ => Except.ok ()) (fun _ => true) c5State
    rfl (fun _ _ => rfl)

/-! ## Connection test and start transition (`WLEDEffectBase.test_connection`,
`WLEDEffectBase.start`) -/

/-- The fields of the device state JSON that `test_connection` reads. -/
structure DeviceState where
  isOn : Bool
  live : Bool
  lor : ℕ
deriving DecidableEq

/-- The device's responses during `test_connection`: the state fetch
(`None` on any HTTP failure), and the results of the two raw
`http.send_command` configuration calls. -/
structure HttpOracle where
  getState : Option DeviceState
  controlOk : Bool
  setupOk : Bool

/-- The segment configuration payload (`stop` exclusive of the inclusive
last index). -/
def setupPayload : Payload := Payload.setup SEGMENT_ID START_LED (STOP_LED + 1)

/-- `test_connection`: fetch the device state (abort on `None`), send the
takeover payload (abort on failure), sleep 0.3s, send the segment setup
payload and return its result. -/
def testConnection (o : HttpOracle) : Bool × List Event :=
  match o.getState with
  | none => (false, [])
  | some _ =>
    if o.controlOk then
      (o.setupOk, [Event.cmd Payload.control, Event.slept (3/10), Event.cmd setupPayload])
    else
      (false, [Event.cmd Payload.control])

/-- `start()`: implicit `stop()` plus a settle sleep when already running;
then `test_connection`, aborting (state unchanged) on failure; on success
set `running := true`, clear the task bookkeeping, blackout the strip and
spawn the main effect task. -/
def startEff (o : HttpOracle) (kill : String → Except String Unit) (send : ℕ → Bool)
    (s : EffState) : Except String (EffState × List Event) :=
  match (if s.running then
          match stopEff kill send s with
          | Except.error e => Except.error e
          | Except.ok (s1, evs) => Except.ok (s1, evs ++ [Event.slept 1])
         else Except.ok (s, ([] : List Event))) with
  | Except.error e => Except.error e
  | Except.ok (s1, evs0) =>
    let tc := testConnection o
    if tc.1 = false then Except.ok (s1, evs0 ++ tc.2)
    else
      let s2 := { s1 with running := true, activeTasks := [] }
      let r := blackoutSegment send s2
      Except.ok (r.1, evs0 ++ tc.2 ++ r.2 ++ [Event.spawnTask "wled_effect_main"])

/-- Claim C6: when the state fetch returns nothing or either configuration
command is rejected, `start()` from the idle state returns normally (no
exception) with the engine state unchanged: `running` stays false, no
task is spawned, and no blackout frame is sent. -/
theorem start_verification_failure_aborts_idle (o : HttpOracle)
    (kill : String → Except String Unit) (send : ℕ → Bool) (s : EffState)
    (hidle : s.running = false)
    (hfail : o.getState = none ∨ o.controlOk = false ∨ o.setupOk = false) :
    ∃ evs, startEff o kill send s = Except.ok (s, evs)
      ∧ (∀ n, Event.spawnTask n ∉ evs)
      ∧ Event.cmd blackoutPayload ∉ evs := by
  have htc : (testConnection o).1 = false := by
    rcases hfail with h | h | h
    · rw [testConnection, h]
    · rw [testConnection]
      cases o.getState with
      | none => rfl
      | some st => simp [h]
    · rw [testConnection]
      cases o.getState with
      | none => rfl
      | some st =>
        cases hc : o.controlOk with
        | false => simp
        | true => simp [h]
  refine ⟨(testConnection o).2, ?_, ?_, ?_⟩
  · rw [startEff, hidle]
    simp [htc]
  · intro n
    rw [testConnection]
    cases o.getState with
    | none => simp
    | some st =>
      cases o.controlOk with
      | false => simp
      | true => simp
  · rw [testConnection]
    cases o.getState with
    | none => simp
    | some st =>
      cases o.controlOk with
      | false => simp [blackoutPayload, setupPayload]
      | true => simp [blackoutPayload, setupPayload]

/-- Witness for C6: an unreachable device (state fetch yields nothing) and
an idle engine. -/
theorem start_verification_failure_aborts_idle_witness :
    ∃ evs, startEff ⟨none, true, true⟩ (fun _ => Except.ok ()) (fun _ => true)
        ⟨false, false, [], 0, 0, 0, [], 0⟩ = Except.ok (⟨false, false, [], 0, 0, 0, [], 0⟩, evs)
      ∧ (∀ n, Event.spawnTask n ∉ evs)
      ∧ Event.cmd blackoutPayload ∉ evs :=
  start_verification_failure_aborts_idle ⟨none, true, true⟩ (fun _ => Except.ok ())
    (fun _ => true) ⟨false, false, [], 0, 0, 0, [], 0⟩ rfl (Or.inl rfl)

/-! ## Interruptible sleep (`WLEDEffectBase.interruptible_sleep`) -/

/-- The loop of `interruptible_sleep`: while time remains and the shared
`running` flag (read at the current elapsed time) is set, sleep
`min(0.5, remaining)` and continue; on exit return the flag's value.
Result: (returned boolean, elapsed time at return). -/
def isleepAux (running : ℚ → Bool) (remaining elapsed : ℚ) : Bool × ℚ :=
  if h : 0 < remaining ∧ running elapsed = true then
    isleepAux running (remaining - min (1/2) remaining) (elapsed + min (1/2) remaining)
  else
    (running elapsed, elapsed)
termination_by Nat.ceil (2 * remaining)
decreasing_by
  rcases le_total remaining (1/2 : ℚ) with hle | hge
  · have hz : remaining - min (1/2) remaining = 0 := by
      rw [min_eq_right hle]; ring
    rw [hz]
    have : Nat.ceil ((2 : ℚ) * 0) = 0 := by norm_num
    rw [this]
    exact Nat.ceil_pos.mpr (by linarith [h.1])
  · have hmin : min (1/2 : ℚ) remaining = 1/2 := min_eq_left hge
    rw [hmin]
    have harg : (2 : ℚ) * (remaining - 1/2) = 2 * remaining - 1 := by ring
    rw [harg]
    have h0 : (0 : ℚ) ≤ 2 * remaining - 1 := by linarith
    have hceil : Nat.ceil ((2 * remaining - 1) + 1) = Nat.ceil ((2 : ℚ) * remaining - 1) + 1 :=
      Nat.ceil_add_one h0
    have hsum : (2 * remaining - 1) + 1 = (2 : ℚ) * remaining := by ring
    rw [hsum] at hceil
    omega

/-- `interruptible_sleep(duration)`. -/
def interruptibleSleep (running : ℚ → Bool) (duration : ℚ) : Bool × ℚ :=
  isleepAux running duration 0

/-- A `running` flag that turns false at time `t` and stays false. -/
def cutoffFlag (t : ℚ) : ℚ → Bool := fun e => decide (e < t)

theorem interruptibleSleep_eq (running : ℚ → Bool) (duration : ℚ) :
    interruptibleSleep running duration = isleepAux running duration 0 := rfl

theorem isleepAux_const_true (remaining elapsed : ℚ) :
    isleepAux (fun _ => true) remaining elapsed = (true, elapsed + max remaining 0) := by
  induction remaining, elapsed using isleepAux.induct (fun _ => true) with
  | case1 remaining elapsed h ih =>
      rw [isleepAux, dif_pos h, ih]
      have h1 : (0 : ℚ) ≤ remaining - min (1/2) remaining := by
        rcases le_total remaining (1/2 : ℚ) with hle | hge
        · rw [min_eq_right hle]; linarith
        · rw [min_eq_left hge]; linarith [h.1]
      rw [max_eq_left h1, max_eq_left (le_of_lt h.1)]
      refine congrArg (Prod.mk true) ?_
      ring
  | case2 remaining elapsed h =>
      rw [isleepAux, dif_neg h]
      have hr : ¬ 0 < remaining := by
        intro hpos
        exact h ⟨hpos, rfl⟩
      rw [max_eq_right (by linarith)]
      refine congrArg (Prod.mk true) ?_
      ring

theorem isleepAux_fst (running : ℚ → Bool) (remaining elapsed : ℚ) :
    (isleepAux running remaining elapsed).1
      = running (isleepAux running remaining elapsed).2 := by
  induction remaining, elapsed using isleepAux.induct running with
  | case1 remaining elapsed h ih =>
      rw [isleepAux, dif_pos h]
      exact ih
  | case2 remaining elapsed h =>
      rw [isleepAux, dif_neg h]

theorem isleepAux_true_elapsed (running : ℚ → Bool) (remaining elapsed : ℚ) :
    (isleepAux running remaining elapsed).1 = true →
      elapsed + remaining ≤ (isleepAux running remaining elapsed).2 := by
  induction remaining, elapsed using isleepAux.induct running with
  | case1 remaining elapsed h ih =>
      intro htrue
      rw [isleepAux, dif_pos h] at htrue ⊢
      have := ih htrue
      linarith
  | case2 remaining elapsed h =>
      intro htrue
      rw [isleepAux, dif_neg h] at htrue ⊢
      have hre : running elapsed = true := htrue
      have hr : ¬ 0 < remaining := fun hpos => h ⟨hpos, hre⟩
      simp only [not_lt] at hr
      show elapsed + remaining ≤ elapsed
      linarith

theorem isleepAux_cutoff_bound (t : ℚ) (remaining elapsed : ℚ)
    (he : elapsed < t + 1/2) :
    (isleepAux (cutoffFlag t) remaining elapsed).2 < t + 1/2 := by
  induction remaining, elapsed using isleepAux.induct (cutoffFlag t) with
  | case1 remaining elapsed h ih =>
      rw [isleepAux, dif_pos h]
      have hlt : elapsed < t := of_decide_eq_true h.2
      have hc : min (1/2 : ℚ) remaining ≤ 1/2 := min_le_left _ _
      exact ih (by linarith)
  | case2 remaining elapsed h =>
      rw [isleepAux, dif_neg h]
      exact he

/-- Claim C3: `interruptible_sleep` with the `running` flag held true
returns true after exactly the requested nonnegative duration has
elapsed; with a flag cut off at time `t < duration`, it returns false at
an elapsed time within one 0.5-unit quantum after `t`, without completing
the remaining duration. -/
theorem interruptible_sleep_behavior (d t : ℚ) (hd : 0 ≤ d) :
    interruptibleSleep (fun _ => true) d = (true, d)
    ∧ (0 ≤ t → t < d →
        (interruptibleSleep (cutoffFlag t) d).1 = false
        ∧ t ≤ (interruptibleSleep (cutoffFlag t) d).2
        ∧ (interruptibleSleep (cutoffFlag t) d).2 < t + 1/2) := by
  constructor
  · rw [interruptibleSleep_eq, isleepAux_const_true, max_eq_left hd, zero_add]
  · intro ht htd
    have hbound : (interruptibleSleep (cutoffFlag t) d).2 < t + 1/2 := by
      rw [interruptibleSleep_eq]
      exact isleepAux_cutoff_bound t d 0 (by linarith)
    have hfst := isleepAux_fst (cutoffFlag t) d 0
    have hfalse : (interruptibleSleep (cutoffFlag t) d).1 = false := by
      cases hres : (interruptibleSleep (cutoffFlag t) d).1 with
      | false => rfl
      | true =>
        rw [interruptibleSleep_eq] at hres
        have helapsed := isleepAux_true_elapsed (cutoffFlag t) d 0 hres
        rw [hres] at hfst
        have h0d : (0 : ℚ) + d ≤ (isleepAux (cutoffFlag t) d 0).2 := helapsed
        have hlt : (isleepAux (cutoffFlag t) d 0).2 < t :=
          of_decide_eq_true hfst.symm
        linarith
    refine ⟨hfalse, ?_, hbound⟩
    rw [interruptibleSleep_eq] at hfalse ⊢
    rw [hfalse] at hfst
    have := of_decide_eq_false hfst.symm
    linarith

/-- Witness for C3 at duration 2 with the flag cut off at time 0.7: the
sleep returns false at elapsed time 1, within half a unit after 0.7. -/
theorem interruptible_sleep_behavior_witness :
    interruptibleSleep (fun _ => true) 2 = (true, 2)
    ∧ (interruptibleSleep (cutoffFlag (7/10)) 2).1 = false
    ∧ (7/10 : ℚ) ≤ (interruptibleSleep (cutoffFlag (7/10)) 2).2
    ∧ (interruptibleSleep (cutoffFlag (7/10)) 2).2 < 7/10 + 1/2 := by
  have h := interruptible_sleep_behavior 2 (7/10) (by norm_num)
  have h2 := h.2 (by norm_num) (by norm_num)
  exact ⟨h.1, h2.1, h2.2.1, h2.2.2⟩

/-! ## Smooth transition with mid-flight retarget
(`StateSyncEffect.smooth_transition`) -/

/-- The interpolated percentage at one step of the transition loop:
`from_pct + (to_pct - from_pct) * (step / steps)`. -/
def interpStep (fromP toP : ℚ) (step : ℕ) : ℚ :=
  fromP + (toP - fromP) * ((step : ℚ) / SYNC_TRANSITION_STEPS)

/-- Outcome of the `for step in range(steps + 1)` loop of
`smooth_transition`: either the loop ran to its end (or was stopped by
the `running` flag) with the rendered values, or the polled target
changed and the loop requests a restart from the interpolated value at
the observation step toward the new target. -/
inductive LoopOut where
  | done (trace : List ℚ) (idx : ℕ)
  | retarget (trace : List ℚ) (cur nt : ℚ) (idx : ℕ)
deriving DecidableEq

/-- The transition loop itself: at each step check the `running` flag,
poll `get_state` (the clock `idx` counts iterations), and either render
the interpolated value and continue, or report a retarget. -/
def stLoop (get : ℕ → ℚ) (running : ℕ → Bool) (fromP toP : ℚ) :
    List ℕ → ℕ → LoopOut
  | [], idx => LoopOut.done [] idx
  | step :: rest, idx =>
    if running idx then
      if get idx = toP then
        match stLoop get running fromP toP rest (idx + 1) with
        | LoopOut.done tr i2 => LoopOut.done (interpStep fromP toP step :: tr) i2
        | LoopOut.retarget tr c n i2 =>
            LoopOut.retarget (interpStep fromP toP step :: tr) c n i2
      else
        LoopOut.retarget [] (interpStep fromP toP step) (get idx) (idx + 1)
    else LoopOut.done [] idx

/-- `smooth_transition(from_pct, to_pct)` with `SYNC_SMOOTH_TRANSITION`
enabled: render the target directly when it equals the start, else run
the loop; on a retarget, recurse from the current interpolated value
toward the new target. The source recursion is unbounded; `fuel` bounds
how far it is unrolled (exhaustion truncates the trace). Returns the
rendered percentages and the final clock. -/
def smoothTransition (get : ℕ → ℚ) (running : ℕ → Bool) :
    ℕ → ℚ → ℚ → ℕ → List ℚ × ℕ
  | 0, fromP, toP, idx =>
    if fromP = toP then ([toP], idx)
    else
      match stLoop get running fromP toP (List.range (SYNC_TRANSITION_STEPS + 1)) idx with
      | LoopOut.done tr i2 => (tr, i2)
      | LoopOut.retarget tr _ _ i2 => (tr, i2)
  | fuel + 1, fromP, toP, idx =>
    if fromP = toP then ([toP], idx)
    else
      match stLoop get running fromP toP (List.range (SYNC_TRANSITION_STEPS + 1)) idx with
      | LoopOut.done tr i2 => (tr, i2)
      | LoopOut.retarget tr cur nt i2 =>
        (tr ++ (smoothTransition get running fuel cur nt i2).1,
         (smoothTransition get running fuel cur nt i2).2)

theorem smoothTransition_done (get : ℕ → ℚ) (running : ℕ → Bool) (fuel : ℕ)
    (fromP toP : ℚ) (idx : ℕ) (tr : List ℚ) (i2 : ℕ) (hne : fromP ≠ toP)
    (hloop : stLoop get running fromP toP (List.range (SYNC_TRANSITION_STEPS + 1)) idx
      = LoopOut.done tr i2) :
    smoothTransition get running fuel fromP toP idx = (tr, i2) := by
  cases fuel <;> rw [smoothTransition, if_neg hne, hloop]

theorem stLoop_const (get : ℕ → ℚ) (toP fromP : ℚ) :
    ∀ pending idx, (∀ i, idx ≤ i → get i = toP) →
      stLoop get (fun _ => true) fromP toP pending idx
        = LoopOut.done (pending.map (interpStep fromP toP)) (idx + pending.length) := by
  intro pending
  induction pending with
  | nil => intro idx _; simp [stLoop]
  | cons step rest ih =>
      intro idx hget
      rw [stLoop]
      have h0 : get idx = toP := hget idx (le_refl idx)
      rw [ih (idx + 1) (fun i hi => hget i (by omega))]
      simp only [h0, if_pos rfl, if_true, List.map_cons, List.length_cons]
      refine congrArg _ ?_
      omega

theorem stLoop_retarget (fromP toP nt : ℚ) (k : ℕ)
    (hk : k ≤ SYNC_TRANSITION_STEPS) (hnt : nt ≠ toP) :
    ∀ n j, j ≤ k → k - j = n →
      stLoop (fun i => if i < k then toP else nt) (fun _ => true) fromP toP
          (List.range' j (SYNC_TRANSITION_STEPS + 1 - j)) j
        = LoopOut.retarget ((List.range' j (k - j)).map (interpStep fromP toP))
            (interpStep fromP toP k) nt (k + 1) := by
  intro n
  induction n with
  | zero =>
      intro j hj hn
      have hjk : j = k := by omega
      subst hjk
      have hlen : SYNC_TRANSITION_STEPS + 1 - j = (SYNC_TRANSITION_STEPS - j) + 1 := by
        omega
      rw [hlen, List.range'_succ, stLoop]
      have hz : j - j = 0 := by omega
      rw [hz, List.range'_zero, List.map_nil]
      simp [hnt]
  | succ n ih =>
      intro j hj hn
      have hjk : j < k := by omega
      have hlen : SYNC_TRANSITION_STEPS + 1 - j = (SYNC_TRANSITION_STEPS + 1 - (j + 1)) + 1 := by
        omega
      rw [hlen, List.range'_succ, stLoop]
      rw [ih (j + 1) (by omega) (by omega)]
      have hsplit : k - j = (k - (j + 1)) + 1 := by omega
      rw [hsplit, List.range'_succ, List.map_cons]
      simp [hjk]

/-- Claim C8: when the polled target changes at observation step `k` of a
transition from `fromP` toward `toP`, the rendered trace is the first
`k` interpolation steps of the original transition followed by a fresh
full transition whose step-0 render is exactly the interpolated value
reached at step `k` and whose target is the new value — neither a
restart from `fromP` nor a discontinuous jump to the new target. -/
theorem smooth_transition_retargets_from_current (fromP toP nt : ℚ) (k fuel : ℕ)
    (hk : k ≤ SYNC_TRANSITION_STEPS) (hfrom : fromP ≠ toP) (hnt : nt ≠ toP)
    (hcur : interpStep fromP toP k ≠ nt) :
    smoothTransition (fun i => if i < k then toP else nt) (fun _ => true) (fuel + 1)
        fromP toP 0
      = ((List.range k).map (interpStep fromP toP)
          ++ (List.range (SYNC_TRANSITION_STEPS + 1)).map
              (interpStep (interpStep fromP toP k) nt),
         k + SYNC_TRANSITION_STEPS + 2) := by
  have hloop := stLoop_retarget fromP toP nt k hk hnt (k - 0) 0 (Nat.zero_le k) rfl
  rw [Nat.sub_zero, Nat.sub_zero] at hloop
  rw [← List.range_eq_range', ← List.range_eq_range'] at hloop
  have hrec : smoothTransition (fun i => if i < k then toP else nt) (fun _ => true) fuel
      (interpStep fromP toP k) nt (k + 1)
      = ((List.range (SYNC_TRANSITION_STEPS + 1)).map (interpStep (interpStep fromP toP k) nt),
         (k + 1) + (SYNC_TRANSITION_STEPS + 1)) := by
    refine smoothTransition_done _ _ _ _ _ _ _ _ hcur ?_
    rw [stLoop_const (fun i => if i < k then toP else nt) nt (interpStep fromP toP k)
        (List.range (SYNC_TRANSITION_STEPS + 1)) (k + 1)
        (fun i hi => by
          show (if i < k then toP else nt) = nt
          rw [if_neg (by omega)])]
    simp
  rw [smoothTransition, if_neg hfrom]
  simp only [hloop, hrec]
  refine congrArg _ ?_
  omega

/-- Witness for C8: a transition from 0 toward 100 retargeted to 50 at
observation step 3 renders steps 0, 10, 20 and then a fresh transition
starting exactly at the interpolated value 30 toward 50. -/
theorem smooth_transition_retargets_from_current_witness :
    smoothTransition (fun i => if i < 3 then (100 : ℚ) else 50) (fun _ => true) 1 0 100 0
      = ((List.range 3).map (interpStep 0 100)
          ++ (List.range (SYNC_TRANSITION_STEPS + 1)).map
              (interpStep (interpStep 0 100 3) 50),
         3 + SYNC_TRANSITION_STEPS + 2) :=
  smooth_transition_retargets_from_current 0 100 50 3 0 (by norm_num [SYNC_TRANSITION_STEPS])
    (by norm_num) (by norm_num) (by norm_num [interpStep, SYNC_TRANSITION_STEPS])



/-! ## Segment fade lifecycle (`SegmentFadeEffect.fade_segment_lifecycle`) -/

def FADE_IN_SECONDS : ℕ := 5
def STAY_ON_MIN : ℕ := 10
def STAY_ON_MAX : ℕ := 15
def FADE_OUT_SECONDS : ℕ := 10
def FADE_STEPS_PER_SECOND : ℕ := 5

/-- `ease_in_out(t)`: `4t³` below one half, else `1 - (-2t + 2)³ / 2`. -/
def easeInOut (t : ℚ) : ℚ :=
  if t < 1/2 then 4 * t ^ 3 else 1 - (-2 * t + 2) ^ 3 / 2

/-- Per-channel `int(channel * factor * (LED_BRIGHTNESS / 255.0))`. -/
def applyBrightness (base : Color) (factor : ℚ) : Color :=
  ((Int.floor ((base.1 : ℚ) * factor * ((LED_BRIGHTNESS : ℚ) / 255))).toNat,
   (Int.floor ((base.2.1 : ℚ) * factor * ((LED_BRIGHTNESS : ℚ) / 255))).toNat,
   (Int.floor ((base.2.2 : ℚ) * factor * ((LED_BRIGHTNESS : ℚ) / 255))).toNat)

/-- One frame of the fade loops: every absolute position of
`[startPos, endPos]` mapped to its relative index (`abs - START_LED`)
with the step's color, sent with `"bri": 255`. -/
def fadeFrame (startPos endPos : ℕ) (c : Color) : Payload :=
  Payload.frame SEGMENT_ID
    ((List.range' startPos (endPos + 1 - startPos)).map fun i => (i - START_LED, c))
    (some 255)

/-- `spawn_delay = max(stay_duration - FADE_IN_SECONDS, stay_duration * 0.5)`. -/
def spawnDelay (stay : ℚ) : ℚ := max (stay - (FADE_IN_SECONDS : ℚ)) (stay * (1/2))

/-- The random draws, sleep outcomes, shared-flag reads and HTTP results
one lifecycle consumes: `preDelayOk`/`spawnSleepOk`/`restSleepOk` are the
results of its three interruptible sleeps, `runningAfterDelay` the flag
re-read after the first, `segLen` the drawn length, `draw` the candidate
positions, `color` the drawn color, `stay` the stay-on duration, `send n`
the HTTP result of the command sent at `command_count = n`, and
`runningAt` the flag as read at the n-th in-loop check. -/
structure FadeOracle where
  preDelayOk : Bool
  runningAfterDelay : Bool
  segLen : ℕ
  draw : ℕ → ℕ
  color : Color
  stay : ℚ
  spawnSleepOk : Bool
  restSleepOk : Bool
  send : ℕ → Bool
  runningAt : ℕ → Bool

/-- One fade loop (`for step in range(num_steps + 1)`): check the
`running` flag, send the eased frame through `send_wled_command`, sleep
`step_duration`; an unset flag aborts the loop. Returns (completed?,
state, clock, events). -/
def fadePhase (o : FadeOracle) (startPos endPos numSteps : ℕ) (stepDur : ℚ)
    (fadeOut : Bool) :
    List ℕ → EffState → ℕ → List Event → Bool × EffState × ℕ × List Event
  | [], s, clk, evs => (true, s, clk, evs)
  | step :: rest, s, clk, evs =>
    if o.runningAt clk then
      fadePhase o startPos endPos numSteps stepDur fadeOut rest
        (sendWled (o.send s.commandCount) s).2 (clk + 1)
        (evs ++ [Event.cmd (fadeFrame startPos endPos
            (applyBrightness o.color
              (easeInOut (if fadeOut then 1 - (step : ℚ) / numSteps
                          else (step : ℚ) / numSteps)))),
          Event.slept stepDur])
    else (false, s, clk + 1, evs)

/-- The post-placement part of `fade_segment_lifecycle`: registration,
fade in, stay-on with the replacement spawn, fade out, the clearing
frame, and deregistration; every early `return` path unregisters the
task name first. -/
def fadeLifecycleMain (o : FadeOracle) (segId : ℕ) (s : EffState) (startPos : ℕ) :
    EffState × List Event :=
  let taskName := "segment_" ++ toString segId
  let endPos := startPos + o.segLen - 1
  let s1 := { s with activeSegments := (segId, startPos, endPos) :: s.activeSegments }
  let fin := fadePhase o startPos endPos (FADE_IN_SECONDS * FADE_STEPS_PER_SECOND)
      ((FADE_IN_SECONDS : ℚ) / (FADE_IN_SECONDS * FADE_STEPS_PER_SECOND : ℕ)) false
      (List.range (FADE_IN_SECONDS * FADE_STEPS_PER_SECOND + 1)) s1 0 []
  if fin.1 = false then
    ({ fin.2.1 with activeTasks := fin.2.1.activeTasks.erase taskName }, fin.2.2.2)
  else if o.runningAt fin.2.2.1 = false then
    ({ fin.2.1 with activeTasks := fin.2.1.activeTasks.erase taskName }, fin.2.2.2)
  else if o.spawnSleepOk = false then
    ({ fin.2.1 with activeTasks := fin.2.1.activeTasks.erase taskName }, fin.2.2.2)
  else
    let s2 := { fin.2.1 with segmentCounter := fin.2.1.segmentCounter + 1 }
    let newName := "segment_" ++ toString s2.segmentCounter
    let s3 := { s2 with activeTasks := newName :: s2.activeTasks }
    let evs1 := fin.2.2.2 ++ [Event.spawnTask newName]
    if o.stay - spawnDelay o.stay > 0 ∧ o.restSleepOk = false then
      ({ s3 with activeTasks := s3.activeTasks.erase taskName }, evs1)
    else
      let fo := fadePhase o startPos endPos (FADE_OUT_SECONDS * FADE_STEPS_PER_SECOND)
          ((FADE_OUT_SECONDS : ℚ) / (FADE_OUT_SECONDS * FADE_STEPS_PER_SECOND : ℕ)) true
          (List.range (FADE_OUT_SECONDS * FADE_STEPS_PER_SECOND + 1)) s3
          (fin.2.2.1 + 1) evs1
      if fo.1 = false then
        ({ fo.2.1 with activeTasks := fo.2.1.activeTasks.erase taskName }, fo.2.2.2)
      else
        let cl := sendWled (o.send fo.2.1.commandCount) fo.2.1
        let s4 := { cl.2 with
          activeSegments := cl.2.activeSegments.filter fun t => t.1 != segId }
        ({ s4 with activeTasks := s4.activeTasks.erase taskName },
         fo.2.2.2 ++ [Event.cmd (fadeFrame startPos endPos (0, 0, 0))])

/-- `fade_segment_lifecycle(segment_id)`: the random pre-delay, the
running re-check, the placement attempt (skipping the spawn when all 20
candidates collide), then the main fade lifecycle. -/
def fadeSegmentLifecycle (o : FadeOracle) (segId : ℕ) (s : EffState) :
    EffState × List Event :=
  if o.preDelayOk = false then
    ({ s with activeTasks := s.activeTasks.erase ("segment_" ++ toString segId) }, [])
  else if o.runningAfterDelay = false then
    ({ s with activeTasks := s.activeTasks.erase ("segment_" ++ toString segId) }, [])
  else
    match tryPlace s.activeSegments o.draw o.segLen with
    | none =>
        ({ s with activeTasks := s.activeTasks.erase ("segment_" ++ toString segId) }, [])
    | some startPos => fadeLifecycleMain o segId s startPos

/-- Claim C9: a spawn attempt examines only the 20 drawn candidates and
accepts the first whose spacing-expanded range collides with no active
segment; when every one of the 20 candidates collides, the lifecycle
returns at once — no segment registered, no frame or spawn emitted, only
its own task name removed from the bookkeeping. -/
theorem segment_spawn_skips_when_exhausted :
    (∀ (o : FadeOracle) (segId : ℕ) (s : EffState),
      o.preDelayOk = true → o.runningAfterDelay = true →
      (∀ c ∈ (List.range 20).map o.draw,
        checkOverlap s.activeSegments c (c + o.segLen - 1) = true) →
      fadeSegmentLifecycle o segId s
        = ({ s with activeTasks := s.activeTasks.erase ("segment_" ++ toString segId) }, []))
    ∧ (∀ segs draw len c, tryPlace segs draw len = some c →
        c ∈ (List.range 20).map draw ∧ checkOverlap segs c (c + len - 1) = false) := by
  constructor
  · intro o segId s h1 h2 h3
    have hnone : tryPlace s.activeSegments o.draw o.segLen = none := by
      rw [tryPlace]
      rw [List.find?_eq_none]
      intro c hc
      simp [h3 c hc]
    rw [fadeSegmentLifecycle, h1, h2]
    simp only [Bool.true_eq_false, if_false, hnone]
  · intro segs draw len c h
    exact ⟨tryPlace_mem h, tryPlace_no_overlap h⟩

/-- A lifecycle environment whose 20 candidates all land on the occupied
position 5 while segment (1, 5, 7) is active. -/
def c9Oracle : FadeOracle :=
  ⟨true, true, 3, fun _ => 5, (255, 0, 0), 12, true, true, fun _ => true, fun _ => true⟩

def c9State : EffState := ⟨true, false, ["segment_2"], 0, 0, 0, [(1, 5, 7)], 2⟩

/-- Witness for C9: with every candidate colliding, the lifecycle of
segment 2 returns with only its task name removed and no event emitted,
and a successful placement always satisfies the acceptance predicate. -/
theorem segment_spawn_skips_when_exhausted_witness :
    fadeSegmentLifecycle c9Oracle 2 c9State
      = ({ c9State with
            activeTasks := c9State.activeTasks.erase ("segment_" ++ toString 2) }, [])
    ∧ (tryPlace [] (fun _ => 7) 4 = some 7 →
        7 ∈ (List.range 20).map (fun _ => 7)
        ∧ checkOverlap [] 7 (7 + 4 - 1) = false) :=
  ⟨segment_spawn_skips_when_exhausted.1 c9Oracle 2 c9State rfl rfl (by decide),
   segment_spawn_skips_when_exhausted.2 [] (fun _ => 7) 4 7⟩

/-! ## Run-once entry point (`WLEDEffectManager.run_once_effect`; the
effect-side `run_once` method is not part of the sources) -/

/-- Modelled from the spec: the `run_once` method of the effect base
class is missing from the sources (only its caller
`WLEDEffectManager.run_once_effect` and the `run_once_mode` flag's
consumers appear). Per §4.5 of the specification it invokes the effect
routine directly with the single-iteration flag set and `running` held
true for the call's duration, awaits its natural return, and leaves
`running = false` with every spawned sub-task reaped before returning. -/
def runOnce (routine : EffState → Except String (EffState × List Event))
    (s : EffState) : Except String (EffState × List Event) :=
  match routine { s with running := true, runOnceMode := true } with
  | Except.error e => Except.error e
  | Except.ok (s1, evs) =>
      Except.ok ({ s1 with running := false, activeTasks := [] }, evs)

/-- `WLEDEffectManager.run_once_effect`: false when no effect instance is
configured; otherwise awaits `run_once`, reporting true on natural
completion and converting any raised exception to false. -/
def runOnceEffect (eff : Option EffState)
    (routine : EffState → Except String (EffState × List Event)) : Bool :=
  match eff with
  | none => false
  | some s =>
    match runOnce routine s with
    | Except.ok _ => true
    | Except.error _ => false

/-- The `while self.running` loop closing `SegmentFadeEffect.run_effect`:
with `run_once_mode` set it breaks on the first iteration, else it
sleeps 10s per iteration; `i` is the iteration index, `fuel` bounds the
unrolling, and the result is true iff the loop exited. -/
def segmentFadeMainLoop (runningSeq : ℕ → Bool) (runOnceMode : Bool) :
    ℕ → ℕ → Bool
  | 0, _ => false
  | fuel + 1, i =>
    if runningSeq i then
      if runOnceMode then true
      else segmentFadeMainLoop runningSeq runOnceMode fuel (i + 1)
    else true

/-- Claim C7 (run_once modelled from the spec, its caller and the
single-iteration branch from the sources): a natural return of
`run_once` leaves `running = false` with the sub-task bookkeeping empty;
the run-once entry point returns a boolean — true exactly on natural
completion, false when the routine raises — rather than propagating; and
the effect routine's `run_once_mode` branch exits the main loop on its
first iteration for any fuel. -/
theorem run_once_reaps_and_reports
    (routine : EffState → Except String (EffState × List Event)) (s : EffState) :
    (∀ s1 evs, runOnce routine s = Except.ok (s1, evs) →
      s1.running = false ∧ s1.activeTasks = [])
    ∧ (∀ e, routine { s with running := true, runOnceMode := true } = Except.error e →
        runOnceEffect (some s) routine = false)
    ∧ (∀ s1 evs, routine { s with running := true, runOnceMode := true }
        = Except.ok (s1, evs) → runOnceEffect (some s) routine = true)
    ∧ (∀ runningSeq fuel i, segmentFadeMainLoop runningSeq true (fuel + 1) i = true) := by
  refine ⟨?_, ?_, ?_, ?_⟩
  · intro s1 evs h
    rw [runOnce] at h
    cases hr : routine { s with running := true, runOnceMode := true } with
    | error e => rw [hr] at h; exact absurd h (by simp)
    | ok out =>
        rw [hr] at h
        cases out with
        | mk s2 evs2 =>
            simp only [Except.ok.injEq, Prod.mk.injEq] at h
            rw [← h.1]
            exact ⟨rfl, rfl⟩
  · intro e h
    rw [runOnceEffect, runOnce, h]
  · intro s1 evs h
    rw [runOnceEffect, runOnce, h]
  · intro runningSeq fuel i
    rw [segmentFadeMainLoop]
    cases hr : runningSeq i <;> simp

def c7State : EffState := ⟨false, false, ["segment_1"], 4, 3, 1, [], 1⟩

/-- The state `run_once` leaves behind for the identity routine. -/
def c7Final : EffState := ⟨false, true, [], 4, 3, 1, [], 1⟩

/-- Witness for C7 with the identity routine on a concrete state. -/
theorem run_once_reaps_and_reports_witness :
    (c7Final.running = false ∧ c7Final.activeTasks = [])
    ∧ runOnceEffect (some c7State) (fun s2 => Except.ok (s2, [])) = true
    ∧ segmentFadeMainLoop (fun _ => true) true 1 0 = true := by
  have h := run_once_reaps_and_reports (fun s2 => Except.ok (s2, [])) c7State
  exact ⟨h.1 c7Final [] rfl, h.2.2.1 _ [] rfl, h.2.2.2 (fun _ => true) 0 0⟩

end WledSpec
